import Mathlib

/-!
Shallow embedding of `odsgenerator.py` (jdum/odfdo-contrib).

The source is a single Python module that converts a JSON-like document
description into an ODS spreadsheet via the external `odfdo` backend.
We embed the schema-resolution core: the polymorphic node splitter
(`ODSGenerator.split`), the style catalog and registry
(`parse_styles` / `insert_style`), style resolution (`guess_style`),
the cell/row/table builders (`parse_cell` / `parse_row` / `parse_table`),
column-width application (`parse_width`), and the top-level `parse`.

Modelling conventions, noted where they matter:
* JSON values are the inductive `Node`.  The floating-point carrier is
  abstracted to `Int` (no claim computes with float values; only the
  runtime *kind* of a value is ever inspected).
* Python truthiness of a node is `Node.truthy`.
* The external backend (`odfdo`) parses style markup with
  `Element.from_tag`; it is modelled as a function
  `String → Option String` returning the `style:family` attribute of the
  markup, or `none` when the markup is unparsable.  `odfdoTag` is the
  concrete instance covering exactly the markup strings occurring in the
  source's `DEFAULT_STYLES`; theorems that need other markup take the
  parsing function as a parameter or extend `odfdoTag`.
* Style names, map keys and defaults values are modelled as strings (the
  input grammar documented in the module docstring).  A JSON `null` or
  other non-string in a name position behaves in the Python code like a
  key that no string lookup ever hits; it is conflated with `""`, which
  has the same observable behaviour (both fail every truthiness check in
  `guess_style` / `insert_style`).
* `Document.insert_style` (backend) appends the style element to the
  document; automatic styles without a name receive a backend-generated
  fresh name, modelled by the `autoCounter` field.
-/

set_option autoImplicit false
set_option maxRecDepth 100000

namespace Odsgen

/-- JSON-like runtime value, as handled by the Python code.  The `float`
carrier is abstracted (only the kind is ever inspected by the source). -/
inductive Node where
  | null
  | bool (b : Bool)
  | int (n : Int)
  | float (f : Int)
  | str (s : String)
  | list (xs : List Node)
  | dict (fields : List (String × Node))

/-- Python truthiness of a node (`if x:`). -/
def Node.truthy : Node → Bool
  | .null => false
  | .bool b => b
  | .int n => n != 0
  | .float f => f != 0
  | .str s => s != ""
  | .list xs => !xs.isEmpty
  | .dict fs => !fs.isEmpty

/-- `d.get(k)` on a Python dict modelled as an association list
(first match; JSON objects have unique keys). -/
def pyLookup (fields : List (String × Node)) (k : String) : Option Node :=
  (fields.find? (fun kv => kv.1 = k)).map (fun kv => kv.2)

/-- Removing a key from a Python dict (`d.pop(k, ...)` leaves the rest). -/
def eraseKey (fields : List (String × Node)) (k : String) :
    List (String × Node) :=
  fields.filter (fun kv => kv.1 ≠ k)

/-- `ODSGenerator.split(item, key)` (staticmethod, source lines 424-430):
if `item` is a dict, pop `key` (default `[]`) and return
`(inner, remaining-dict)`; otherwise return `(item, {})`. -/
def split (item : Node) (key : String) : Node × List (String × Node) :=
  match item with
  | .dict fields => ((pyLookup fields key).getD (.list []), eraseKey fields key)
  | _ => (item, [])

/-- A parsed style element as held in `styles_elements`: the name assigned
by the generator, the `style:family` reported by the backend parser, and
the markup text it was parsed from. -/
structure StyleElem where
  name : String
  family : String
  text : String
deriving DecidableEq, Repr

/-- `styles_elements` is a Python dict keyed by the element's own name
(the source always sets `style.name` to the dict key before storing).
Lookup is by name. -/
def catLookup (cat : List StyleElem) (n : String) : Option StyleElem :=
  cat.find? (fun e => e.name = n)

/-- Dict assignment `styles_elements[name] = style`: overwrite by name. -/
def catInsert (cat : List StyleElem) (e : StyleElem) : List StyleElem :=
  cat.filter (fun x => x.name ≠ e.name) ++ [e]

/-- The `DEFAULTS_DICT` record (source lines 343-350); six slots, all read
by the parser. -/
structure Defaults where
  style_table_row : String
  style_table_cell : String
  style_str : String
  style_int : String
  style_float : String
  style_other : String
deriving DecidableEq, Repr

/-- The module-level `DEFAULTS_DICT` literal. -/
def DEFAULTS_DICT : Defaults :=
  { style_table_row := "default_table_row"
    style_table_cell := ""
    style_str := "left"
    style_int := "right"
    style_float := "right"
    style_other := "left" }

/-- One step of `self.defaults.update(...)`: set the slot named `k`.
Keys other than the six slots are stored by the Python dict but never
read by the source, so they are dropped; values are modelled as strings
per the input grammar (a non-string value in a defaults slot is outside
the model). -/
def setDefault (d : Defaults) (kv : String × Node) : Defaults :=
  match kv with
  | (k, .str v) =>
      if k = "style_table_row" then { d with style_table_row := v }
      else if k = "style_table_cell" then { d with style_table_cell := v }
      else if k = "style_str" then { d with style_str := v }
      else if k = "style_int" then { d with style_int := v }
      else if k = "style_float" then { d with style_float := v }
      else if k = "style_other" then { d with style_other := v }
      else d
  | _ => d

/-- `self.defaults.update(opt.get(DEFAULTS, {}))`.  A non-dict argument
would raise in Python (outside the documented grammar); modelled as a
no-op. -/
def defaultsUpdate (d : Defaults) (n : Node) : Defaults :=
  match n with
  | .dict fs => fs.foldl setDefault d
  | _ => d

/-- A cell as built by `parse_cell`: `Cell(value=value, style=style,
text=opt.get(TEXT))`. -/
structure CellRec where
  value : Node
  style : Option String
  text : Option Node

/-- A row as built by `parse_row`: `Row(style=style_table_row)` plus its
appended cells. -/
structure RowRec where
  style : Option String
  cells : List CellRec

/-- A table as built by `parse_table`: name, appended rows, and per-column
styles (the backend's columns carry an optional style name each). -/
structure TableRec where
  name : String
  rows : List RowRec
  columns : List (Option String)

/-- The mutable state of one `ODSGenerator` instance:
`self.doc` (the styles inserted into the backend document, in insertion
order), `self.doc.body` (appended tables), `self.tab_counter`,
`self.defaults`, `self.styles_elements`, `self.used_styles`, and a
counter modelling the backend's generation of fresh automatic style
names. -/
structure OdsState where
  doc : List StyleElem
  body : List TableRec
  tabCounter : Nat
  defaults : Defaults
  cat : List StyleElem
  used : List String
  autoCounter : Nat

/-- `ODSGenerator.insert_style(name)` (source lines 403-407): insert the
catalog element into the document iff `name` is truthy, not yet used, and
present in the catalog; then mark it used.  `name` is `str` or `None` in
the source. -/
def insertStyle (s : OdsState) (name : Option String) : OdsState :=
  match name with
  | none => s
  | some nm =>
      if nm ≠ "" ∧ nm ∉ s.used ∧ (catLookup s.cat nm).isSome then
        match catLookup s.cat nm with
        | some e => { s with doc := s.doc ++ [e], used := nm :: s.used }
        | none => s
      else s

/-- `opt.get(STYLE, [])` followed by the wrap `if not isinstance(style_list,
list): style_list = [style_list]` (source lines 410-412). -/
def styleListOf (optStyle : Option Node) : List Node :=
  match optStyle with
  | none => []
  | some (.list ns) => ns
  | some n => [n]

/-- The candidate loop of `guess_style` (source lines 413-417): first
truthy candidate that is a catalog key whose element's family matches.
A non-string candidate never matches any (string) catalog key. -/
def firstCand (cat : List StyleElem) (family : String) :
    List Node → Option String
  | [] => none
  | c :: cs =>
      if c.truthy then
        match c with
        | .str sn =>
            match catLookup cat sn with
            | some e => if e.family = family then some sn
                        else firstCand cat family cs
            | none => firstCand cat family cs
        | _ => firstCand cat family cs
      else firstCand cat family cs

/-- The fallback check of `guess_style` (source lines 418-421): return the
default iff it is truthy, in the catalog, and of the right family. -/
def fallbackCheck (cat : List StyleElem) (family : String)
    (default : Option String) : Option String :=
  match default with
  | none => none
  | some d =>
      if d ≠ "" then
        match catLookup cat d with
        | some e => if e.family = family then some d else none
        | none => none
      else none

/-- `ODSGenerator.guess_style(opt, family, default)` (source lines
409-422), as a function of the catalog, the raw `opt.get(STYLE)` node,
the family, and the default (a `str` or `None` in the source). -/
def guessStyle (cat : List StyleElem) (optStyle : Option Node)
    (family : String) (default : Option String) : Option String :=
  match firstCand cat family (styleListOf optStyle) with
  | some sn => some sn
  | none => fallbackCheck cat family default

/-- Python `isinstance(value, str)` on a node. -/
def pyIsStr : Node → Bool
  | .str _ => true
  | _ => false

/-- Python `isinstance(value, int)` on a node: `bool` is a subclass of
`int` in Python, so booleans satisfy this test. -/
def pyIsInt : Node → Bool
  | .int _ => true
  | .bool _ => true
  | _ => false

/-- Python `isinstance(value, float)` on a node. -/
def pyIsFloat : Node → Bool
  | .float _ => true
  | _ => false

/-- Truthiness of the `default` chain value (`str` or `None`). -/
def optTruthy : Option String → Bool
  | none => false
  | some s => s != ""

/-- The default-style selection of `parse_cell` (source lines 466-475):
the cascaded `style_table_cell` if truthy, else the slot selected by the
runtime kind of `value` through the `isinstance` chain. -/
def cellDefault (d : Defaults) (styleTableCell : Option String)
    (value : Node) : Option String :=
  if optTruthy styleTableCell then styleTableCell
  else if pyIsStr value then some d.style_str
  else if pyIsInt value then some d.style_int
  else if pyIsFloat value then some d.style_float
  else some d.style_other

/-- Which `Defaults` slot the kind dispatch of `parse_cell` selects. -/
inductive DefaultField where
  | fStr
  | fInt
  | fFloat
  | fOther
deriving DecidableEq, Repr

/-- Read a kind slot of `Defaults`. -/
def Defaults.slot (d : Defaults) : DefaultField → String
  | .fStr => d.style_str
  | .fInt => d.style_int
  | .fFloat => d.style_float
  | .fOther => d.style_other

/-- The slot selected by the `isinstance` chain of `parse_cell` for a
given value. -/
def kindField (value : Node) : DefaultField :=
  if pyIsStr value then .fStr
  else if pyIsInt value then .fInt
  else if pyIsFloat value then .fFloat
  else .fOther

/-- The final style computation of `parse_cell` (source lines 464-476),
as a function of catalog, defaults, the cell's remaining options, the
cascaded default, and the value. -/
def parseCellStyle (cat : List StyleElem) (d : Defaults)
    (opt : List (String × Node)) (styleTableCell : Option String)
    (value : Node) : Option String :=
  guessStyle cat (pyLookup opt "style") "table-cell"
    (cellDefault d styleTableCell value)

/-- `ODSGenerator.parse_cell(row, cell_content, style_table_cell)`
(source lines 464-478): split on `value`, compute the style, register it,
and build the cell. -/
def parseCell (s : OdsState) (cellContent : Node)
    (styleTableCell : Option String) : OdsState × CellRec :=
  let (value, opt) := split cellContent "value"
  let style := parseCellStyle s.cat s.defaults opt styleTableCell value
  let s := insertStyle s style
  (s, { value := value, style := style, text := pyLookup opt "text" })

/-- Python `str(x)`, used by the width f-string.  Only the string case is
exercised under the documented input grammar (widths are strings);
renderings of other kinds are abbreviated. -/
def pyStr : Node → String
  | .str s => s
  | .int n => toString n
  | .bool b => cond b "True" "False"
  | .float _ => "float"
  | .null => "None"
  | .list _ => "list"
  | .dict _ => "dict"

/-- The column-width markup built by `column_width_style` (source lines
480-492), with the width interpolated. -/
def colXml (w : String) : String :=
  "<style:style style:family=\"table-column\"> <style:table-column-properties fo:break-before=\"auto\" style:column-width=\"" ++ w ++ "\"/> </style:style>"

/-- The backend's generated name for the `k`-th automatic style of a run.
The backend guarantees freshness, which is all the source relies on; the
spelling is modelled by an injective function of the insertion counter. -/
def autoName (k : Nat) : String :=
  "co" ++ String.mk (List.replicate k 'c')

/-- `ODSGenerator.column_width_style(width)`: hand a fresh unnamed
`table-column` style to the backend; the backend registers it under a
generated automatic name (modelled by `autoCounter`) and returns that
name. -/
def columnWidthStyle (s : OdsState) (w : String) : String × OdsState :=
  let nm := autoName s.autoCounter
  let e : StyleElem := { name := nm, family := "table-column", text := colXml w }
  (nm, { s with doc := s.doc ++ [e], autoCounter := s.autoCounter + 1 })

/-- `table.set_column(position, column)` where the column carries style
`c`.  Positions beyond the table's width are outside the claims (the
backend's auto-extension is not modelled; `List.set` is a no-op there). -/
def setCol (t : TableRec) (i : Nat) (c : Option String) : TableRec :=
  { t with columns := t.columns.set i c }

/-- The list branch of `parse_width` (source lines 498-504):
`for position, width in enumerate(width_opt): if width: ...`. -/
def widthLoop (s : OdsState) (t : TableRec) (i : Nat) :
    List Node → OdsState × TableRec
  | [] => (s, t)
  | w :: ws =>
      if w.truthy then
        widthLoop (columnWidthStyle s (pyStr w)).2
          (setCol t i (some (columnWidthStyle s (pyStr w)).1)) (i + 1) ws
      else widthLoop s t (i + 1) ws

/-- `ODSGenerator.parse_width(table, opt)` (source lines 494-507). -/
def parseWidth (s : OdsState) (t : TableRec) (opt : List (String × Node)) :
    OdsState × TableRec :=
  match pyLookup opt "width" with
  | none => (s, t)
  | some w =>
      if !w.truthy then (s, t)
      else
        match w with
        | .list ws => widthLoop s t 0 ws
        | _ =>
            (List.range t.columns.length).foldl
              (fun acc pos =>
                let (nm, s') := columnWidthStyle acc.1 (pyStr w)
                (s', setCol acc.2 pos (some nm)))
              (s, t)

/-- `ODSGenerator.parse_row(table, row_content, style_table_row,
style_table_cell)` (source lines 454-462).  The row payload is a list of
cells under the documented grammar. -/
def parseRow (s : OdsState) (rowContent : Node)
    (styleTableRow styleTableCell : Option String) : OdsState × RowRec :=
  let (cells, opt) := split rowContent "row"
  let strow := guessStyle s.cat (pyLookup opt "style") "table-row" styleTableRow
  let s := insertStyle s strow
  let stcell := guessStyle s.cat (pyLookup opt "style") "table-cell" styleTableCell
  let cellNodes := match cells with
    | .list cs => cs
    | _ => []
  let acc := cellNodes.foldl
    (fun (acc : OdsState × List CellRec) c =>
      let (s', cell) := parseCell acc.1 c stcell
      (s', acc.2 ++ [cell]))
    (s, [])
  (acc.1, { style := strow, cells := acc.2 })

/-- `ODSGenerator.parse_table(table_content)` (source lines 439-452).
The backend table's column count is the maximal row length; columns
initially carry no explicit style. -/
def parseTable (s : OdsState) (tableContent : Node) : OdsState :=
  let (rows, opt) := split tableContent "table"
  let s := { s with tabCounter := s.tabCounter + 1 }
  let name := match pyLookup opt "name" with
    | some (.str nm) => nm
    | some n => pyStr n
    | none => "Tab " ++ toString s.tabCounter
  let strow := guessStyle s.cat (pyLookup opt "style") "table-row"
    (some s.defaults.style_table_row)
  let stcell := guessStyle s.cat (pyLookup opt "style") "table-cell"
    (some s.defaults.style_table_cell)
  let rowNodes := match rows with
    | .list rs => rs
    | _ => []
  let acc := rowNodes.foldl
    (fun (acc : OdsState × List RowRec) r =>
      let (s', row) := parseRow acc.1 r strow stcell
      (s', acc.2 ++ [row]))
    (s, [])
  let width := acc.2.foldl (fun m r => max m r.cells.length) 0
  let t : TableRec := { name := name, rows := acc.2,
                        columns := List.replicate width none }
  let (s2, t2) := parseWidth acc.1 t opt
  { s2 with body := s2.body ++ [t2] }

/-- One entry of the module-level `DEFAULT_STYLES` list (and of the
caller's `styles` list): `name`, `definition` markup, optional
`always_insert` flag. -/
structure StyleSrc where
  name : String
  definition : String
  always_insert : Bool := false
deriving DecidableEq, Repr

/-- The module-level `DEFAULT_STYLES` list (source lines 74-341).  The
markup strings are the source's XML with whitespace collapsed (markup is
an opaque payload; no claim inspects its internal structure). -/
def DEFAULT_STYLES : List StyleSrc := [
  { name := "default_table_row",
    definition := "<style:style style:family=\"table-row\"> <style:table-row-properties style:row-height=\"4.52mm\" fo:break-before=\"auto\" style:use-optimal-row-height=\"true\"/> </style:style>" },
  { name := "table_row_1cm",
    definition := "<style:style style:family=\"table-row\"> <style:table-row-properties style:row-height=\"1cm\" fo:break-before=\"auto\"/> </style:style>" },
  { name := "bold",
    definition := "<style:style style:family=\"table-cell\" style:parent-style-name=\"Default\"> <style:text-properties fo:font-weight=\"bold\" style:font-weight-asian=\"bold\" style:font-weight-complex=\"bold\"/> <style:table-cell-properties style:text-align-source=\"value-type\"/> <style:paragraph-properties fo:margin-right=\"1mm\"/> </style:style>" },
  { name := "bold_center",
    definition := "<style:style style:family=\"table-cell\" style:parent-style-name=\"Default\"> <style:text-properties fo:font-weight=\"bold\" style:font-weight-asian=\"bold\" style:font-weight-complex=\"bold\"/> <style:table-cell-properties style:text-align-source=\"vfix\"/> <style:paragraph-properties fo:text-align=\"center\"/> </style:style>" },
  { name := "left",
    definition := "<style:style style:family=\"table-cell\" style:parent-style-name=\"Default\"> <style:table-cell-properties style:text-align-source=\"fix\"/> <style:paragraph-properties fo:text-align=\"start\" fo:margin-left=\"1mm\"/> </style:style>" },
  { name := "right",
    definition := "<style:style style:family=\"table-cell\" style:parent-style-name=\"Default\"> <style:table-cell-properties style:text-align-source=\"fix\"/> <style:paragraph-properties fo:text-align=\"end\" fo:margin-right=\"1mm\"/> </style:style>" },
  { name := "center",
    definition := "<style:style style:family=\"table-cell\" style:parent-style-name=\"Default\"> <style:table-cell-properties style:text-align-source=\"fix\"/> <style:paragraph-properties fo:text-align=\"center\"/> </style:style>" },
  { name := "dec1",
    definition := "<number:number-style><number:number number:decimal-places=\"1\" loext:min-decimal-places=\"1\" number:min-integer-digits=\"1\" number:grouping=\"false\"/> </number:number-style>",
    always_insert := true },
  { name := "dec2",
    definition := "<number:number-style><number:number number:decimal-places=\"2\" loext:min-decimal-places=\"2\" number:min-integer-digits=\"1\" number:grouping=\"false\"/> </number:number-style>",
    always_insert := true },
  { name := "dec4",
    definition := "<number:number-style><number:number number:decimal-places=\"4\" loext:min-decimal-places=\"4\" number:min-integer-digits=\"1\" number:grouping=\"false\"/> </number:number-style>",
    always_insert := true },
  { name := "dec6",
    definition := "<number:number-style><number:number number:decimal-places=\"6\" loext:min-decimal-places=\"6\" number:min-integer-digits=\"1\" number:grouping=\"false\"/> </number:number-style>",
    always_insert := true },
  { name := "integer",
    definition := "<number:number-style><number:number number:decimal-places=\"0\" loext:min-decimal-places=\"0\" number:min-integer-digits=\"1\" number:grouping=\"false\"/> </number:number-style>",
    always_insert := true },
  { name := "integer_no0",
    definition := "<number:number-style><number:number number:decimal-places=\"0\" loext:min-decimal-places=\"0\" number:min-integer-digits=\"0\" number:grouping=\"false\"/> </number:number-style>",
    always_insert := true },
  { name := "grid06",
    definition := "<style:style style:family=\"table-cell\" style:parent-style-name=\"Default\"> <style:table-cell-properties fo:border=\"0.06pt solid #000000\"/> <style:paragraph-properties fo:margin-left=\"1.2mm\" fo:margin-right=\"1.2mm\"/> </style:style>" },
  { name := "bold_left_bg_gray_grid06",
    definition := "<style:style style:family=\"table-cell\" style:parent-style-name=\"Default\"> <style:table-cell-properties fo:font-weight=\"bold\" style:font-weight-asian=\"bold\" style:font-weight-complex=\"bold\" fo:background-color=\"#dddddd\" fo:border=\"0.06pt solid #000000\" style:text-align-source=\"fix\"/> <style:paragraph-properties fo:text-align=\"start\" fo:margin-left=\"1.2mm\"/> </style:style>" },
  { name := "bold_center_bg_gray_grid06",
    definition := "<style:style style:family=\"table-cell\" style:parent-style-name=\"Default\"> <style:table-cell-properties fo:font-weight=\"bold\" style:font-weight-asian=\"bold\" style:font-weight-complex=\"bold\" fo:background-color=\"#dddddd\" fo:border=\"0.06pt solid #000000\" style:text-align-source=\"fix\"/> <style:paragraph-properties fo:text-align=\"center\"/> </style:style>" },
  { name := "grid06_right",
    definition := "<style:style style:family=\"table-cell\" style:parent-style-name=\"Default\"> <style:table-cell-properties style:text-align-source=\"fix\" fo:border=\"0.06pt solid #000000\"/> <style:paragraph-properties fo:margin-right=\"1.2mm\" fo:text-align=\"end\"/> </style:style>" },
  { name := "grid06_int",
    definition := "<style:style style:family=\"table-cell\" style:parent-style-name=\"Default\" style:data-style-name=\"integer\"> <style:table-cell-properties fo:border=\"0.06pt solid #000000\"/> <style:paragraph-properties fo:margin-left=\"1.2mm\" fo:margin-right=\"1.2mm\"/> </style:style>" },
  { name := "grid06_center_int",
    definition := "<style:style style:family=\"table-cell\" style:parent-style-name=\"Default\" style:data-style-name=\"integer_no0\"> <style:table-cell-properties fo:border=\"0.06pt solid #000000\"/> <style:paragraph-properties fo:text-align=\"center\"/> </style:style>" },
  { name := "grid06_dec1",
    definition := "<style:style style:family=\"table-cell\" style:parent-style-name=\"Default\" style:data-style-name=\"dec1\"> <style:table-cell-properties fo:border=\"0.06pt solid #000000\"/> <style:paragraph-properties fo:margin-left=\"1.2mm\" fo:margin-right=\"1.2mm\"/> </style:style>" },
  { name := "grid06_dec2",
    definition := "<style:style style:family=\"table-cell\" style:parent-style-name=\"Default\" style:data-style-name=\"dec2\"> <style:table-cell-properties fo:border=\"0.06pt solid #000000\"/> <style:paragraph-properties fo:margin-left=\"1.2mm\" fo:margin-right=\"1.2mm\"/> </style:style>" },
  { name := "grid06_dec4",
    definition := "<style:style style:family=\"table-cell\" style:parent-style-name=\"Default\" style:data-style-name=\"dec4\"> <style:table-cell-properties fo:border=\"0.06pt solid #000000\"/> <style:paragraph-properties fo:margin-left=\"1.2mm\" fo:margin-right=\"1.2mm\"/> </style:style>" },
  { name := "grid06_dec6",
    definition := "<style:style style:family=\"table-cell\" style:parent-style-name=\"Default\" style:data-style-name=\"dec6\"> <style:table-cell-properties fo:border=\"0.06pt solid #000000\"/> <style:paragraph-properties fo:margin-left=\"1.2mm\" fo:margin-right=\"1.2mm\"/> </style:style>" },
  { name := "cell_dec2",
    definition := "<style:style style:family=\"table-cell\" style:parent-style-name=\"Default\" style:data-style-name=\"dec2\"> <style:paragraph-properties fo:margin-right=\"1.2mm\"/> </style:style>" }
]

/-- The `style:family` reported by the backend for each built-in style's
markup (`table-row` / `table-cell` per the markup's family attribute;
number styles carry the backend's `number` family, which matches neither
`table-row` nor `table-cell`). -/
def builtinFamily (n : String) : Option String :=
  if n = "default_table_row" ∨ n = "table_row_1cm" then some "table-row"
  else if n = "dec1" ∨ n = "dec2" ∨ n = "dec4" ∨ n = "dec6"
      ∨ n = "integer" ∨ n = "integer_no0" then some "number"
  else if (DEFAULT_STYLES.map StyleSrc.name).contains n then some "table-cell"
  else none

/-- The modelled backend markup parser (`Element.from_tag`) on the markup
strings occurring in the source: returns the family of the parsed style
element, or `none` for markup the model does not cover.  Theorems about
other markup extend this function. -/
def odfdoTag (t : String) : Option String :=
  match DEFAULT_STYLES.find? (fun b => b.definition = t) with
  | some b => builtinFamily b.name
  | none => none

/-- The loop of `parse_styles` over `DEFAULT_STYLES` (source lines
380-391): parse the markup, aborting with the offending style definition
printed when the backend raises; store the element in the catalog; insert
it at once when flagged `always_insert`.  The error payload is the list
of style definitions printed before the exception propagates. -/
def builtinLoop (ft : String → Option String) (s : OdsState) :
    List StyleSrc → Except (List StyleSrc) OdsState
  | [] => .ok s
  | b :: bs =>
      match ft b.definition with
      | none => .error [b]
      | some fam =>
          let e : StyleElem := { name := b.name, family := fam,
                                 text := b.definition }
          let s := { s with cat := catInsert s.cat e }
          let s := if b.always_insert then insertStyle s (some b.name) else s
          builtinLoop ft s bs

/-- The loop of `parse_styles` over the caller's `styles` list (source
lines 393-401).  Unlike the built-in loop, it is not wrapped in
`try/except`: a backend parse failure (or a non-dict entry / non-string
definition, which raise in Python) propagates with nothing printed. -/
def callerLoop (ft : String → Option String) (s : OdsState) :
    List Node → Except (List StyleSrc) OdsState
  | [] => .ok s
  | n :: ns =>
      match n with
      | .dict fields =>
          let nm := match pyLookup fields "name" with
            | some (.str x) => x
            | _ => ""
          match pyLookup fields "definition" with
          | some (.str t) =>
              match ft t with
              | none => .error []
              | some fam =>
                  let e : StyleElem := { name := nm, family := fam, text := t }
                  let s := { s with cat := catInsert s.cat e }
                  let s :=
                    if ((pyLookup fields "always_insert").getD .null).truthy
                    then insertStyle s (some nm) else s
                  callerLoop ft s ns
          | _ => .error []
      | _ => .error []

/-- `ODSGenerator.parse_styles(opt)` (source lines 379-401), generic in
the built-in list (instantiated with `DEFAULT_STYLES` by
`parseStyles`). -/
def parseStylesCore (ft : String → Option String) (builtins : List StyleSrc)
    (s : OdsState) (stylesNode : Option Node) :
    Except (List StyleSrc) OdsState :=
  match builtinLoop ft s builtins with
  | .error e => .error e
  | .ok s1 =>
      match stylesNode with
      | some (.list ss) => callerLoop ft s1 ss
      | _ => .ok s1

/-- `ODSGenerator.parse_styles(opt)` with the source's `DEFAULT_STYLES`. -/
def parseStyles (ft : String → Option String) (s : OdsState)
    (stylesNode : Option Node) : Except (List StyleSrc) OdsState :=
  parseStylesCore ft DEFAULT_STYLES s stylesNode

/-- One full `ODSGenerator(content)` construction (source lines 366-374
and `parse`, lines 432-437).  `moduleDefaults` is the current value of
the module-level `DEFAULTS_DICT` object: the constructor's
`self.defaults = DEFAULTS_DICT` aliases it, and
`self.defaults.update(...)` in `parse` mutates it in place, so the
function returns, along with the run's outcome, the value the
module-level dict holds afterwards (it is mutated even when
`parse_styles` raises, since the update precedes it). -/
def runGen (ft : String → Option String) (moduleDefaults : Defaults)
    (content : Node) : Defaults × Except (List StyleSrc) OdsState :=
  let s0 : OdsState := { doc := [], body := [], tabCounter := 0,
                         defaults := moduleDefaults, cat := [], used := [],
                         autoCounter := 0 }
  let (body, opt) := split content "body"
  let d1 := defaultsUpdate moduleDefaults ((pyLookup opt "defaults").getD (.dict []))
  let s1 := { s0 with defaults := d1 }
  match parseStyles ft s1 (pyLookup opt "styles") with
  | .error e => (d1, .error e)
  | .ok s2 =>
      let tabs := match body with
        | .list ts => ts
        | _ => []
      let sF := tabs.foldl parseTable s2
      (sF.defaults, .ok sF)

/-- The state of a freshly constructed generator before any parsing
(`__init__`, with the module-level defaults still at their built-in
values). -/
def initState : OdsState :=
  { doc := [], body := [], tabCounter := 0, defaults := DEFAULTS_DICT,
    cat := [], used := [], autoCounter := 0 }

/-- How many times a style of the given name was inserted into the
backend document. -/
def countName (docStyles : List StyleElem) (n : String) : Nat :=
  docStyles.countP (fun e => e.name = n)

/-- The registry invariant of a generator state: each name reaches the
backend document at most once, and every inserted name is recorded as
used.  It holds for the fresh state and is preserved by every operation
that inserts named styles. -/
def InsertInv (s : OdsState) : Prop :=
  (s.doc.map StyleElem.name).Nodup ∧ ∀ e ∈ s.doc, e.name ∈ s.used

/-- The resolution rule exactly as the specification claim words it
(claim C1): the first candidate that exists in the catalog with a
matching family; else the fallback when it is non-empty, exists, and
matches; else nothing. -/
def resolveSpec (cat : List StyleElem) (cands : List String)
    (family fallback : String) : Option String :=
  match cands.find? (fun c =>
      match catLookup cat c with
      | some e => decide (e.family = family)
      | none => false) with
  | some c => some c
  | none =>
      if fallback ≠ "" then
        match catLookup cat fallback with
        | some e => if e.family = family then some fallback else none
        | none => none
      else none

/-- The resolution rule with the one amendment the code forces: a
candidate must additionally be non-empty to be considered (the code's
truthiness test skips `""` before the catalog is consulted). -/
def resolveSpecAmended (cat : List StyleElem) (cands : List String)
    (family fallback : String) : Option String :=
  match cands.find? (fun c =>
      decide (c ≠ "") &&
      match catLookup cat c with
      | some e => decide (e.family = family)
      | none => false) with
  | some c => some c
  | none =>
      if fallback ≠ "" then
        match catLookup cat fallback with
        | some e => if e.family = family then some fallback else none
        | none => none
      else none

/-- A caller-supplied style definition as a JSON node, as it appears in
the document's `styles` list. -/
def mkStyleNode (nm df : String) (ai : Bool) : Node :=
  .dict [("name", .str nm), ("definition", .str df), ("always_insert", .bool ai)]

/-- The modelled backend parser extended with one extra markup text `df`
parsing to family `g` (used to speak about caller-supplied markup that
the built-in table does not cover). -/
def ftx (df g : String) : String → Option String := fun t =>
  match odfdoTag t with
  | some f => some f
  | none => if t = df then some g else none

/-- The generator state right after the built-in half of `parse_styles`
(all of `DEFAULT_STYLES` loaded, the always-insert styles registered). -/
def sbState : OdsState :=
  match builtinLoop odfdoTag initState DEFAULT_STYLES with
  | .ok s => s
  | .error _ => initState

/-! Helper lemmas shared by several claims. -/

theorem catLookup_name {cat : List StyleElem} {n : String} {e : StyleElem}
    (h : catLookup cat n = some e) : e.name = n := by
  have := List.find?_some h
  simpa using this

theorem firstCand_valid {cat : List StyleElem} {fam : String} :
    ∀ {l : List Node} {sn : String}, firstCand cat fam l = some sn →
      sn ≠ "" ∧ ∃ e, catLookup cat sn = some e ∧ e.family = fam := by
  intro l
  induction l with
  | nil => intro sn h; simp [firstCand] at h
  | cons c cs ih =>
    intro sn h
    cases c with
    | str s =>
        simp only [firstCand, Node.truthy] at h
        by_cases hs : s = ""
        · subst hs
          rw [if_neg (by simp)] at h
          exact ih h
        · rw [if_pos (by simp [hs])] at h
          cases hl : catLookup cat s with
          | some e =>
              simp only [hl] at h
              by_cases hf : e.family = fam
              · rw [if_pos hf] at h
                cases h
                exact ⟨hs, e, hl, hf⟩
              · rw [if_neg hf] at h
                exact ih h
          | none =>
              simp only [hl] at h
              exact ih h
    | null => simp only [firstCand] at h; rw [ite_self] at h; exact ih h
    | bool b => simp only [firstCand] at h; rw [ite_self] at h; exact ih h
    | int n => simp only [firstCand] at h; rw [ite_self] at h; exact ih h
    | float f => simp only [firstCand] at h; rw [ite_self] at h; exact ih h
    | list xs => simp only [firstCand] at h; rw [ite_self] at h; exact ih h
    | dict fs => simp only [firstCand] at h; rw [ite_self] at h; exact ih h

theorem fallbackCheck_valid {cat : List StyleElem} {fam : String}
    {d : Option String} {sn : String} (h : fallbackCheck cat fam d = some sn) :
    sn ≠ "" ∧ ∃ e, catLookup cat sn = some e ∧ e.family = fam := by
  match d with
  | none => simp [fallbackCheck] at h
  | some s =>
      rw [fallbackCheck] at h
      by_cases hs : s ≠ ""
      · rw [if_pos hs] at h
        cases hl : catLookup cat s with
        | some e =>
            simp only [hl] at h
            by_cases hf : e.family = fam
            · rw [if_pos hf] at h; cases h; exact ⟨hs, e, hl, hf⟩
            · rw [if_neg hf] at h; cases h
        | none => simp only [hl] at h; cases h
      · rw [if_neg hs] at h; cases h

theorem fallbackCheck_of_valid {cat : List StyleElem} {fam sn : String}
    {e : StyleElem} (hs : sn ≠ "") (hl : catLookup cat sn = some e)
    (hf : e.family = fam) : fallbackCheck cat fam (some sn) = some sn := by
  simp [fallbackCheck, hs, hl, hf]

theorem guessStyle_eq_first {cat : List StyleElem} {o : Option Node}
    {fam : String} {d : Option String} {sn : String}
    (h : firstCand cat fam (styleListOf o) = some sn) :
    guessStyle cat o fam d = some sn := by
  rw [guessStyle, h]

theorem guessStyle_eq_fallback {cat : List StyleElem} {o : Option Node}
    {fam : String} {d : Option String}
    (h : firstCand cat fam (styleListOf o) = none) :
    guessStyle cat o fam d = fallbackCheck cat fam d := by
  rw [guessStyle, h]

theorem guessStyle_valid {cat : List StyleElem} {o : Option Node}
    {fam : String} {d : Option String} {sn : String}
    (h : guessStyle cat o fam d = some sn) :
    sn ≠ "" ∧ ∃ e, catLookup cat sn = some e ∧ e.family = fam := by
  rw [guessStyle] at h
  cases hf : firstCand cat fam (styleListOf o) with
  | some s => rw [hf] at h; cases h; exact firstCand_valid hf
  | none => rw [hf] at h; exact fallbackCheck_valid h

theorem firstCand_map_str (cat : List StyleElem) (fam : String) :
    ∀ cands : List String, firstCand cat fam (cands.map Node.str) =
      cands.find? (fun c =>
        decide (c ≠ "") &&
        match catLookup cat c with
        | some e => decide (e.family = fam)
        | none => false) := by
  intro cands
  induction cands with
  | nil => rfl
  | cons c cs ih =>
    rw [List.map_cons]
    simp only [firstCand, Node.truthy]
    by_cases hc : c = ""
    · subst hc
      rw [if_neg (by simp), List.find?_cons_of_neg _ (by simp), ih]
    · rw [if_pos (by simp [hc])]
      cases hl : catLookup cat c with
      | some e =>
          simp only [hl]
          by_cases hf : e.family = fam
          · rw [if_pos hf, List.find?_cons_of_pos _ (by simp [hl, hc, hf])]
          · rw [if_neg hf, List.find?_cons_of_neg _ (by simp [hl, hc, hf]), ih]
      | none =>
          simp only [hl]
          rw [List.find?_cons_of_neg _ (by simp [hl, hc]), ih]

/-- Claim C1, corrected.  `guess_style` equals the spec's resolution rule
amended in one point: a candidate must additionally be *non-empty* to be
considered — the code's truthiness test (`if style_name:`) skips `""`
before the catalog is consulted, whereas the claim as stated would let an
empty-string candidate match a catalog entry named `""` (reachable via a
caller style definition with `"name": ""`).  Also: a single string
candidate is treated exactly as the one-element list. -/
theorem c1_resolve_amended : ∀ (cat : List StyleElem) (cands : List String)
    (fam fb : String),
    guessStyle cat (some (.list (cands.map Node.str))) fam (some fb)
      = resolveSpecAmended cat cands fam fb
  ∧ ∀ s0 : String,
      guessStyle cat (some (.str s0)) fam (some fb)
        = guessStyle cat (some (.list [.str s0])) fam (some fb) := by
  intro cat cands fam fb
  constructor
  · rw [guessStyle, resolveSpecAmended,
      show styleListOf (some (.list (cands.map Node.str))) = cands.map Node.str
        from rfl,
      firstCand_map_str cat fam cands]
    cases cands.find? _ with
    | some c => rfl
    | none => rfl
  · intro s0; rfl

/-- Claim C1 counterexample: with a catalog entry named `""` of the
requested family, an empty-string candidate matches per the claim's rule
(it exists in the catalog and its family matches) but the code skips it
and returns nothing. -/
theorem c1_counterexample :
    resolveSpec [{ name := "", family := "table-cell", text := "x" }] [""]
      "table-cell" "" = some ""
  ∧ guessStyle [{ name := "", family := "table-cell", text := "x" }]
      (some (.list [Node.str ""])) "table-cell" (some "") = none := ⟨rfl, rfl⟩

/-- Claim C4: with no truthy cascaded default cell style, `parse_cell`
selects the default by the runtime kind of the value: string selects
`style_str`, integer `style_int`, float `style_float`, and null or any
other (non-boolean) value `style_other`.  (Booleans are instances of
`int` in the source language and take the integer branch; see C10.) -/
theorem c4_kind_default : ∀ (d : Defaults) (stc : Option String),
    optTruthy stc = false →
    (∀ s1 : String, cellDefault d stc (.str s1) = some d.style_str)
  ∧ (∀ n : Int, cellDefault d stc (.int n) = some d.style_int)
  ∧ (∀ x : Int, cellDefault d stc (.float x) = some d.style_float)
  ∧ cellDefault d stc .null = some d.style_other
  ∧ (∀ xs, cellDefault d stc (.list xs) = some d.style_other)
  ∧ (∀ fs, cellDefault d stc (.dict fs) = some d.style_other) := by
  intro d stc h
  refine ⟨fun s1 => ?_, fun n => ?_, fun x => ?_, ?_, fun xs => ?_,
    fun fs => ?_⟩ <;>
    simp [cellDefault, h, pyIsStr, pyIsInt, pyIsFloat]

/-- Claim C4 witness: the built-in defaults at a concrete value of each
kind. -/
theorem c4_kind_default_witness :
    optTruthy none = false
  ∧ cellDefault DEFAULTS_DICT none (.str "a") = some DEFAULTS_DICT.style_str
  ∧ cellDefault DEFAULTS_DICT none (.int 3) = some DEFAULTS_DICT.style_int
  ∧ cellDefault DEFAULTS_DICT none (.float 1) = some DEFAULTS_DICT.style_float
  ∧ cellDefault DEFAULTS_DICT none .null = some DEFAULTS_DICT.style_other := by
  refine ⟨rfl, ?_, ?_, ?_, ?_⟩
  · exact (c4_kind_default DEFAULTS_DICT none rfl).1 "a"
  · exact (c4_kind_default DEFAULTS_DICT none rfl).2.1 3
  · exact (c4_kind_default DEFAULTS_DICT none rfl).2.2.1 1
  · exact (c4_kind_default DEFAULTS_DICT none rfl).2.2.2.1

/-- Claim C10: a boolean value takes the integer branch of the kind
dispatch (Python's `bool` is an `int` subclass, so
`isinstance(value, int)` is true): the fallback slot selected is
`style_int`, not `style_other`. -/
theorem c10_bool_int_branch : ∀ (d : Defaults) (b : Bool),
    cellDefault d none (.bool b) = some d.style_int
  ∧ cellDefault d (some "") (.bool b) = some d.style_int
  ∧ kindField (.bool b) = DefaultField.fInt
  ∧ DefaultField.fInt ≠ DefaultField.fOther
  ∧ d.slot DefaultField.fInt = d.style_int := by
  intro d b
  exact ⟨rfl, rfl, rfl, by decide, rfl⟩

theorem pyLookup_eraseKey_self (fs : List (String × Node)) (key : String) :
    pyLookup (eraseKey fs key) key = none := by
  have h : (eraseKey fs key).find? (fun kv => kv.1 = key) = none := by
    rw [List.find?_eq_none]
    intro kv hkv
    have := (List.mem_filter.mp hkv).2
    simpa using this
  rw [pyLookup, h]
  rfl

theorem pyLookup_cons_eq {kv : String × Node} {fs : List (String × Node)}
    {k : String} (h : kv.1 = k) : pyLookup (kv :: fs) k = some kv.2 := by
  rw [pyLookup, List.find?_cons_of_pos _ (by simp [h])]
  rfl

theorem pyLookup_cons_ne {kv : String × Node} {fs : List (String × Node)}
    {k : String} (h : kv.1 ≠ k) : pyLookup (kv :: fs) k = pyLookup fs k := by
  rw [pyLookup, List.find?_cons_of_neg _ (by simp [h]), pyLookup]

theorem pyLookup_eraseKey_ne (fs : List (String × Node)) (key k : String)
    (hk : k ≠ key) : pyLookup (eraseKey fs key) k = pyLookup fs k := by
  induction fs with
  | nil => rfl
  | cons kv fs ih =>
    by_cases h1 : kv.1 = key
    · rw [eraseKey, List.filter_cons_of_neg (by simp [h1]), ← eraseKey, ih,
        pyLookup_cons_ne (by rw [h1]; exact fun he => hk he.symm)]
    · rw [eraseKey, List.filter_cons_of_pos (by simp [h1]), ← eraseKey]
      by_cases h2 : kv.1 = k
      · rw [pyLookup_cons_eq h2, pyLookup_cons_eq h2]
      · rw [pyLookup_cons_ne h2, pyLookup_cons_ne h2, ih]

/-- Claim C5: `split(item, key)` returns the value stored under `key`
(defaulting to an empty collection) together with the remaining keyed
fields when `item` is a dict, and `(item, empty)` for any other shape;
it is a total function — no input shape raises. -/
theorem c5_split : ∀ (item : Node) (key : String),
    (∀ fields, item = .dict fields →
        (split item key).1 = (pyLookup fields key).getD (.list [])
      ∧ pyLookup (split item key).2 key = none
      ∧ ∀ k, k ≠ key → pyLookup (split item key).2 k = pyLookup fields k)
  ∧ ((∀ fields, item ≠ .dict fields) → split item key = (item, [])) := by
  intro item key
  constructor
  · rintro fields rfl
    exact ⟨rfl, pyLookup_eraseKey_self fields key,
      fun k hk => pyLookup_eraseKey_ne fields key k hk⟩
  · intro h
    cases item with
    | dict fields => exact absurd rfl (h fields)
    | null => rfl
    | bool b => rfl
    | int n => rfl
    | float f => rfl
    | str s => rfl
    | list xs => rfl

/-- Claim C5 witness: a keyed record with the `row` key and a bare scalar. -/
theorem c5_split_witness :
    ((Node.dict [("row", Node.int 1), ("style", Node.str "s")])
        = Node.dict [("row", Node.int 1), ("style", Node.str "s")])
  ∧ (split (.dict [("row", Node.int 1), ("style", Node.str "s")]) "row").1
      = (pyLookup [("row", Node.int 1), ("style", Node.str "s")] "row").getD
          (.list [])
  ∧ pyLookup
      (split (.dict [("row", Node.int 1), ("style", Node.str "s")]) "row").2
      "row" = none
  ∧ (("style" : String) ≠ "row")
  ∧ pyLookup
      (split (.dict [("row", Node.int 1), ("style", Node.str "s")]) "row").2
      "style" = pyLookup [("row", Node.int 1), ("style", Node.str "s")] "style"
  ∧ (∀ fields, (Node.str "a") ≠ .dict fields)
  ∧ split (.str "a") "row" = (.str "a", []) := by
  have h1 := (c5_split (.dict [("row", Node.int 1), ("style", Node.str "s")])
    "row").1 [("row", Node.int 1), ("style", Node.str "s")] rfl
  have h2 := (c5_split (.str "a") "row").2 (fun fields h => Node.noConfusion h)
  exact ⟨rfl, h1.1, h1.2.1, by decide, h1.2.2 "style" (by decide),
    fun fields h => Node.noConfusion h, h2⟩

theorem countName_le_one {l : List StyleElem}
    (h : (l.map StyleElem.name).Nodup) (n : String) : countName l n ≤ 1 := by
  induction l with
  | nil => simp [countName]
  | cons e es ih =>
    rw [List.map_cons, List.nodup_cons] at h
    rw [countName, List.countP_cons]
    by_cases he : e.name = n
    · have hz : es.countP (fun x => decide (x.name = n)) = 0 := by
        rw [List.countP_eq_zero]
        intro a ha
        simp only [decide_eq_true_eq]
        intro han
        exact h.1 (List.mem_map.mpr ⟨a, ha, han.trans he.symm⟩)
      rw [hz]
      simp [he]
    · have hle := ih h.2
      rw [countName] at hle
      simpa [he] using hle

theorem insertStyle_empty (s : OdsState) : insertStyle s (some "") = s := by
  simp [insertStyle]

theorem insertStyle_notin_cat {s : OdsState} {nm : String}
    (h : catLookup s.cat nm = none) : insertStyle s (some nm) = s := by
  simp [insertStyle, h]

theorem insertStyle_mem {s : OdsState} {nm : String} (h : nm ∈ s.used) :
    insertStyle s (some nm) = s := by
  rw [insertStyle, if_neg]
  intro hc
  exact hc.2.1 h

theorem insertStyle_inv {s : OdsState} (hInv : InsertInv s)
    (o : Option String) : InsertInv (insertStyle s o) := by
  match o with
  | none => exact hInv
  | some nm =>
      rw [insertStyle]
      by_cases hc : nm ≠ "" ∧ nm ∉ s.used ∧ (catLookup s.cat nm).isSome
      · rw [if_pos hc]
        cases hl : catLookup s.cat nm with
        | none => exact hInv
        | some e =>
            have hen : e.name = nm := catLookup_name hl
            constructor
            · rw [List.map_append, List.nodup_append]
              refine ⟨hInv.1, by simp, ?_⟩
              intro a ha hb
              rw [List.map_singleton, List.mem_singleton] at hb
              subst hb
              obtain ⟨x, hx, hxn⟩ := List.mem_map.mp ha
              exact hc.2.1 (hen ▸ hxn ▸ hInv.2 x hx)
            · intro x hx
              rw [List.mem_append] at hx
              cases hx with
              | inl hx => exact List.mem_cons_of_mem _ (hInv.2 x hx)
              | inr hx =>
                  rw [List.mem_singleton] at hx
                  subst hx
                  rw [hen]
                  exact List.mem_cons_self _ _
      · rw [if_neg hc]
        exact hInv

theorem insertStyle_foldl_inv (s : OdsState) (hInv : InsertInv s)
    (calls : List (Option String)) : InsertInv (calls.foldl insertStyle s) := by
  induction calls generalizing s with
  | nil => exact hInv
  | cons o os ih => exact ih _ (insertStyle_inv hInv o)

theorem insertStyle_idem (s : OdsState) (o : Option String) :
    insertStyle (insertStyle s o) o = insertStyle s o := by
  match o with
  | none => rfl
  | some nm =>
      by_cases hc : nm ≠ "" ∧ nm ∉ s.used ∧ (catLookup s.cat nm).isSome
      · obtain ⟨e, hl⟩ := Option.isSome_iff_exists.mp hc.2.2
        have h0 : insertStyle s (some nm)
            = { s with doc := s.doc ++ [e], used := nm :: s.used } := by
          rw [insertStyle, if_pos hc, hl]
        rw [h0]
        exact insertStyle_mem (List.mem_cons_self _ _)
      · have h0 : insertStyle s (some nm) = s := by rw [insertStyle, if_neg hc]
        rw [h0, h0]

/-- Claim C3: per run, each style name reaches the backend document at
most once no matter how often `insert_style` is called; repeated calls
are no-ops after the first, and calls with an empty/absent name or a
name absent from the catalog are no-ops, never errors. -/
theorem c3_insert_idempotent : ∀ (s : OdsState), InsertInv s →
    (∀ (calls : List (Option String)) (n : String),
        countName ((calls.foldl insertStyle s).doc) n ≤ 1)
  ∧ insertStyle s none = s
  ∧ insertStyle s (some "") = s
  ∧ (∀ nm, catLookup s.cat nm = none → insertStyle s (some nm) = s)
  ∧ (∀ o, insertStyle (insertStyle s o) o = insertStyle s o) := by
  intro s h
  exact ⟨fun calls n => countName_le_one (insertStyle_foldl_inv s h calls).1 n,
    rfl, insertStyle_empty s, fun nm hnm => insertStyle_notin_cat hnm,
    fun o => insertStyle_idem s o⟩

/-- Claim C3 witness: five calls (two of them for the same present name,
plus absent/empty/unknown names) insert `bold` exactly once. -/
theorem c3_insert_idempotent_witness :
    InsertInv { initState with
      cat := [{ name := "bold", family := "table-cell", text := "b" }] }
  ∧ countName ((([some "bold", some "bold", none, some "", some "nope"]).foldl
      insertStyle { initState with
        cat := [{ name := "bold", family := "table-cell", text := "b" }] }).doc)
      "bold" ≤ 1 := by
  refine ⟨⟨by simp [initState], by simp [initState]⟩, ?_⟩
  exact (c3_insert_idempotent _
    ⟨by simp [initState], by simp [initState]⟩).1 _ "bold"

theorem cellDefault_none_slot (d : Defaults) (value : Node) :
    cellDefault d none value = some (d.slot (kindField value)) := by
  cases value <;> rfl

theorem parseCell_style (s : OdsState) (c : Node) (r : Option String) :
    (parseCell s c r).2.style
      = parseCellStyle s.cat s.defaults (split c "value").2 r
          (split c "value").1 := rfl

/-- Claim C2: the final cell style follows the cascade: the cell's own
candidate list first (against the `table-cell` family); failing that, the
row's resolved cell-style default; when the row's resolved default is
empty the table's resolved default is necessarily empty as well (the row
resolution already used it as fallback, so nothing is lost); and then the
kind-selected default is used (fed, as in the code, through the same
catalog/family fallback check). -/
theorem c2_cell_style_cascade : ∀ (cat : List StyleElem) (d : Defaults)
    (tabStyle rowStyle : Option Node) (cellOpt : List (String × Node))
    (value : Node) (t r : Option String),
    t = guessStyle cat tabStyle "table-cell" (some d.style_table_cell) →
    r = guessStyle cat rowStyle "table-cell" t →
    (∀ (s : OdsState) (c : Node), s.cat = cat → s.defaults = d →
        (parseCell s c r).2.style
          = parseCellStyle cat d (split c "value").2 r (split c "value").1)
  ∧ (∀ sn, firstCand cat "table-cell" (styleListOf (pyLookup cellOpt "style"))
        = some sn → parseCellStyle cat d cellOpt r value = some sn)
  ∧ (firstCand cat "table-cell" (styleListOf (pyLookup cellOpt "style")) = none →
      (∀ sn, r = some sn → parseCellStyle cat d cellOpt r value = some sn)
    ∧ (r = none → t = none
        ∧ parseCellStyle cat d cellOpt r value
            = fallbackCheck cat "table-cell" (some (d.slot (kindField value))))) := by
  intro cat d tabStyle rowStyle cellOpt value t r ht hr
  refine ⟨fun s c hs hd => by rw [parseCell_style, hs, hd], ?_, ?_⟩
  · intro sn hf
    rw [parseCellStyle]
    exact guessStyle_eq_first hf
  · intro hf
    constructor
    · intro sn hrs
      obtain ⟨hne, e, hl, hfam⟩ := guessStyle_valid (hr.symm.trans hrs)
      rw [parseCellStyle, guessStyle_eq_fallback hf]
      have hcd : cellDefault d r value = some sn := by
        rw [hrs]
        simp [cellDefault, optTruthy, hne]
      rw [hcd]
      exact fallbackCheck_of_valid hne hl hfam
    · intro hrn
      constructor
      · cases htt : t with
        | none => rfl
        | some sn =>
            exfalso
            rw [htt] at ht hr
            obtain ⟨hne, e, hl, hfam⟩ := guessStyle_valid ht.symm
            have hgr : guessStyle cat rowStyle "table-cell" (some sn) = none :=
              hr.symm.trans hrn
            rw [guessStyle] at hgr
            cases hfc : firstCand cat "table-cell" (styleListOf rowStyle) with
            | some s2 => rw [hfc] at hgr; cases hgr
            | none =>
                rw [hfc, fallbackCheck_of_valid hne hl hfam] at hgr
                cases hgr
      · rw [parseCellStyle, guessStyle_eq_fallback hf, hrn,
          cellDefault_none_slot]

/-- Claim C2 witness: cell-level `bold` wins over the row's resolved
`left` default in a two-entry catalog. -/
theorem c2_cell_style_cascade_witness :
    (none = guessStyle
        [{ name := "left", family := "table-cell", text := "l" },
         { name := "bold", family := "table-cell", text := "b" }]
        none "table-cell" (some DEFAULTS_DICT.style_table_cell))
  ∧ (some "left" = guessStyle
        [{ name := "left", family := "table-cell", text := "l" },
         { name := "bold", family := "table-cell", text := "b" }]
        (some (.str "left")) "table-cell" none)
  ∧ parseCellStyle
        [{ name := "left", family := "table-cell", text := "l" },
         { name := "bold", family := "table-cell", text := "b" }]
        DEFAULTS_DICT [("style", Node.str "bold")] (some "left") (.str "x")
      = some "bold" := by
  refine ⟨rfl, rfl, ?_⟩
  exact (c2_cell_style_cascade
    [{ name := "left", family := "table-cell", text := "l" },
     { name := "bold", family := "table-cell", text := "b" }]
    DEFAULTS_DICT none (some (.str "left")) [("style", Node.str "bold")]
    (.str "x") none (some "left") rfl rfl).2.1 "bold" rfl

/-- Claim C6 is violated by the code (code bug): `__init__` executes
`self.defaults = DEFAULTS_DICT`, aliasing the module-level dict, and
`parse` then mutates it in place (`self.defaults.update(...)`).  A second
fresh generator instance in the same process therefore starts from the
first run's overridden record, not from the built-in values: after a run
whose input overrides `style_str` to `"bold"`, the module dict — and with
it the second run's seed — reads `"bold"`, while the built-in value is
`"left"`; the second run (with no overrides of its own) still sees
`"bold"`. -/
theorem c6_defaults_leak :
    ((runGen odfdoTag DEFAULTS_DICT
        (.dict [("body", Node.list []),
                ("defaults", Node.dict [("style_str", Node.str "bold")])])).1).style_str
      = "bold"
  ∧ DEFAULTS_DICT.style_str = "left"
  ∧ ((runGen odfdoTag
        ((runGen odfdoTag DEFAULTS_DICT
            (.dict [("body", Node.list []),
                    ("defaults", Node.dict [("style_str", Node.str "bold")])])).1)
        (.list [])).1).style_str = "bold" := ⟨rfl, rfl, rfl⟩

theorem builtinLoop_ok_exists (ft : String → Option String) :
    ∀ (bs : List StyleSrc) (s : OdsState),
      (∀ b ∈ bs, (ft b.definition).isSome) →
      ∃ s2, builtinLoop ft s bs = .ok s2 := by
  intro bs
  induction bs with
  | nil => intro s _; exact ⟨s, rfl⟩
  | cons b bs ih =>
    intro s h
    obtain ⟨fam, hfam⟩ :=
      Option.isSome_iff_exists.mp (h b (List.mem_cons_self _ _))
    obtain ⟨s2, h2⟩ := ih _ (fun b' hb' => h b' (List.mem_cons_of_mem _ hb'))
    refine ⟨s2, ?_⟩
    simp only [builtinLoop, hfam]
    exact h2

theorem builtinLoop_abort (ft : String → Option String) :
    ∀ (pre : List StyleSrc) (b : StyleSrc) (post : List StyleSrc)
      (s : OdsState),
      (∀ b' ∈ pre, (ft b'.definition).isSome) → ft b.definition = none →
      builtinLoop ft s (pre ++ b :: post) = .error [b] := by
  intro pre
  induction pre with
  | nil =>
    intro b post s _ hb
    rw [List.nil_append]
    simp only [builtinLoop, hb]
  | cons p pre ih =>
    intro b post s hpre hb
    obtain ⟨fam, hfam⟩ :=
      Option.isSome_iff_exists.mp (hpre p (List.mem_cons_self _ _))
    rw [List.cons_append]
    simp only [builtinLoop, hfam]
    exact ih b post _ (fun b' hb' => hpre b' (List.mem_cons_of_mem _ hb')) hb

/-- Claim C8, amended.  Unparsable style markup is fatal in both halves
of `parse_styles`, but only the built-in half surfaces the offending
definition before propagating (its loop is wrapped in `try/except` with
prints); a caller-supplied definition whose markup fails to parse aborts
the run with *nothing* printed (the error payload — the printed log — is
empty). -/
theorem c8_fatal_markup :
    (∀ (ft : String → Option String) (pre : List StyleSrc) (b : StyleSrc)
        (post : List StyleSrc) (s : OdsState) (o : Option Node),
        (∀ b' ∈ pre, (ft b'.definition).isSome) → ft b.definition = none →
        parseStylesCore ft (pre ++ b :: post) s o = .error [b])
  ∧ (∀ (ft : String → Option String) (s : OdsState) (nm df : String)
        (ai : Bool),
        (∀ b ∈ DEFAULT_STYLES, (ft b.definition).isSome) → ft df = none →
        parseStyles ft s (some (.list [mkStyleNode nm df ai])) = .error []) := by
  constructor
  · intro ft pre b post s o hpre hb
    rw [parseStylesCore, builtinLoop_abort ft pre b post s hpre hb]
  · intro ft s nm df ai hall hdf
    obtain ⟨s2, h2⟩ := builtinLoop_ok_exists ft DEFAULT_STYLES s hall
    rw [parseStyles, parseStylesCore, h2]
    simp [callerLoop, mkStyleNode, pyLookup, hdf]

/-- Claim C8 counterexample, refuting the claim as stated: a
caller-supplied style definition with unparsable markup aborts the run,
but the printed log is empty — the offending definition is *not*
surfaced before the failure propagates. -/
theorem c8_counterexample :
    parseStyles odfdoTag initState
        (some (.list [mkStyleNode "mystyle" "<broken" false])) = .error []
  ∧ ¬ ∃ printed, parseStyles odfdoTag initState
          (some (.list [mkStyleNode "mystyle" "<broken" false]))
        = .error printed
      ∧ ({ name := "mystyle", definition := "<broken",
           always_insert := false } : StyleSrc) ∈ printed := by
  refine ⟨rfl, ?_⟩
  rintro ⟨printed, hp, hmem⟩
  have h0 : parseStyles odfdoTag initState
      (some (.list [mkStyleNode "mystyle" "<broken" false]))
      = Except.error ([] : List StyleSrc) := rfl
  rw [h0] at hp
  injection hp with h
  rw [← h] at hmem
  cases hmem

/-- Claim C8 witness: a failing built-in definition is printed and
propagated; a failing caller definition is propagated with an empty
printed log. -/
theorem c8_fatal_markup_witness :
    parseStylesCore (fun _ => none)
        [{ name := "x", definition := "<b", always_insert := false }]
        initState none
      = .error [{ name := "x", definition := "<b", always_insert := false }]
  ∧ parseStyles odfdoTag initState (some (.list [mkStyleNode "n2" "<bad2" true]))
      = .error [] := by
  constructor
  · exact c8_fatal_markup.1 (fun _ => none) [] _ [] initState none
      (by simp) rfl
  · exact c8_fatal_markup.2 odfdoTag initState "n2" "<bad2" true
      (by decide) rfl

theorem sbState_always_insert_facts :
    ∀ b ∈ DEFAULT_STYLES, b.always_insert = true →
      b.name ∈ sbState.used
    ∧ countName sbState.doc b.name = 1
    ∧ (∀ e ∈ sbState.doc, e.name = b.name → e.text = b.definition)
    ∧ b.name ≠ "" := by decide

theorem sb_ok (df g : String) :
    builtinLoop (ftx df g) initState DEFAULT_STYLES = .ok sbState := rfl

theorem catLookup_catInsert_self (cat : List StyleElem) (e : StyleElem) :
    catLookup (catInsert cat e) e.name = some e := by
  rw [catInsert, catLookup, List.find?_append]
  have h1 : (cat.filter (fun x => x.name ≠ e.name)).find?
      (fun x => x.name = e.name) = none := by
    rw [List.find?_eq_none]
    intro x hx
    have hx2 := (List.mem_filter.mp hx).2
    simpa using hx2
  rw [h1]
  simp

theorem callerLoop_single_used (ft : String → Option String) (s : OdsState)
    (nm df g : String) (ai : Bool) (hft : ft df = some g)
    (hmem : nm ∈ s.used) :
    callerLoop ft s [mkStyleNode nm df ai]
      = .ok { s with
              cat := catInsert s.cat { name := nm, family := g, text := df } } := by
  have hstep : callerLoop ft s [mkStyleNode nm df ai]
      = match ft df with
        | none => .error []
        | some fam =>
            let s1 := { s with
              cat := catInsert s.cat { name := nm, family := fam, text := df } }
            callerLoop ft (if ai then insertStyle s1 (some nm) else s1) [] := rfl
  rw [hstep, hft]
  cases ai with
  | true =>
      have haux : ∀ s' : OdsState, nm ∈ s'.used →
          callerLoop ft (insertStyle s' (some nm)) [] = Except.ok s' := by
        intro s' h'
        rw [insertStyle_mem h']
        rfl
      exact haux _ hmem
  | false => rfl

/-- Claim C7: when a caller style definition reuses the name of a
built-in flagged `always_insert`, the catalog entry afterwards is the
caller's parsed element (last writer wins), while the markup inserted
into the backend document under that name is the built-in's — the
built-in's always-insert registration ran first and marked the name used,
so the caller's (and any later) insertion of that name is a no-op. -/
theorem c7_always_insert_override : ∀ b ∈ DEFAULT_STYLES,
    b.always_insert = true →
    ∀ (df g : String) (ai : Bool), odfdoTag df = none →
    ∃ s2, parseStyles (ftx df g) initState
        (some (.list [mkStyleNode b.name df ai])) = .ok s2
      ∧ catLookup s2.cat b.name
          = some { name := b.name, family := g, text := df }
      ∧ countName s2.doc b.name = 1
      ∧ (∀ e ∈ s2.doc, e.name = b.name → e.text = b.definition)
      ∧ insertStyle s2 (some b.name) = s2 := by
  intro b hb hai df g ai hdf
  obtain ⟨hused, hcount, htext, hne⟩ := sbState_always_insert_facts b hb hai
  have hft : ftx df g df = some g := by simp [ftx, hdf]
  refine ⟨{ sbState with
      cat := catInsert sbState.cat { name := b.name, family := g, text := df } },
    ?_, ?_, ?_, ?_, ?_⟩
  · rw [parseStyles, parseStylesCore, sb_ok df g]
    exact callerLoop_single_used (ftx df g) sbState b.name df g ai hft hused
  · exact catLookup_catInsert_self sbState.cat _
  · exact hcount
  · exact htext
  · exact insertStyle_mem hused

/-- Claim C7 witness: a caller definition named `dec2` (an always-insert
built-in), with its own markup parsing to family `number`. -/
theorem c7_always_insert_override_witness :
    ({ name := "dec2",
       definition := "<number:number-style><number:number number:decimal-places=\"2\" loext:min-decimal-places=\"2\" number:min-integer-digits=\"1\" number:grouping=\"false\"/> </number:number-style>",
       always_insert := true } : StyleSrc) ∈ DEFAULT_STYLES
  ∧ odfdoTag "<custom-markup" = none
  ∧ ∃ s2, parseStyles (ftx "<custom-markup" "number") initState
        (some (.list [mkStyleNode "dec2" "<custom-markup" true])) = .ok s2
      ∧ catLookup s2.cat "dec2"
          = some { name := "dec2", family := "number", text := "<custom-markup" }
      ∧ countName s2.doc "dec2" = 1
      ∧ (∀ e ∈ s2.doc, e.name = "dec2" →
          e.text = "<number:number-style><number:number number:decimal-places=\"2\" loext:min-decimal-places=\"2\" number:min-integer-digits=\"1\" number:grouping=\"false\"/> </number:number-style>")
      ∧ insertStyle s2 (some "dec2") = s2 := by
  refine ⟨by decide, rfl, ?_⟩
  exact c7_always_insert_override
    { name := "dec2",
      definition := "<number:number-style><number:number number:decimal-places=\"2\" loext:min-decimal-places=\"2\" number:min-integer-digits=\"1\" number:grouping=\"false\"/> </number:number-style>",
      always_insert := true }
    (by decide) rfl "<custom-markup" "number" true rfl

theorem autoName_inj {k1 k2 : Nat} (h : autoName k1 = autoName k2) :
    k1 = k2 := by
  have hd := congrArg String.data h
  simp only [autoName, String.data_append] at hd
  have hr := List.append_cancel_left hd
  have hl := congrArg List.length hr
  simpa using hl

theorem widthLoop_untouched : ∀ (ws : List Node) (s : OdsState) (t : TableRec)
    (i pos : Nat),
    (pos < i ∨ i + ws.length ≤ pos
      ∨ ∃ j, ∃ hj : j < ws.length,
          pos = i + j ∧ (ws.get ⟨j, hj⟩).truthy = false) →
    ((widthLoop s t i ws).2).columns[pos]? = t.columns[pos]? := by
  intro ws
  induction ws with
  | nil => intro s t i pos _; rfl
  | cons w ws ih =>
    intro s t i pos h
    rw [widthLoop]
    by_cases hw : w.truthy
    · rw [if_pos hw]
      have hne : pos ≠ i := by
        rcases h with h1 | h2 | ⟨j, hj, hpj, hfj⟩
        · omega
        · rw [List.length_cons] at h2; omega
        · cases j with
          | zero =>
              exfalso
              have hw0 : w.truthy = false := hfj
              rw [hw0] at hw
              exact absurd hw (by simp)
          | succ j' => omega
      rw [ih _ _ (i + 1) pos ?_]
      · rw [setCol]
        exact List.getElem?_set_ne (Ne.symm hne)
      · rcases h with h1 | h2 | ⟨j, hj, hpj, hfj⟩
        · left; omega
        · right; left; rw [List.length_cons] at h2; omega
        · cases j with
          | zero =>
              exfalso
              have hw0 : w.truthy = false := hfj
              rw [hw0] at hw
              exact absurd hw (by simp)
          | succ j' =>
              right; right
              refine ⟨j', ?_, by omega, hfj⟩
              rw [List.length_cons] at hj
              omega
    · rw [if_neg hw]
      apply ih
      rcases h with h1 | h2 | ⟨j, hj, hpj, hfj⟩
      · left; omega
      · right; left; rw [List.length_cons] at h2; omega
      · cases j with
        | zero => left; omega
        | succ j' =>
            right; right
            refine ⟨j', ?_, by omega, hfj⟩
            rw [List.length_cons] at hj
            omega

theorem widthLoop_doc_prefix : ∀ (ws : List Node) (s : OdsState)
    (t : TableRec) (i : Nat),
    ∃ rest, ((widthLoop s t i ws).1).doc = s.doc ++ rest := by
  intro ws
  induction ws with
  | nil => intro s t i; exact ⟨[], (List.append_nil _).symm⟩
  | cons w ws ih =>
    intro s t i
    rw [widthLoop]
    by_cases hw : w.truthy
    · rw [if_pos hw]
      obtain ⟨rest, hr⟩ := ih (columnWidthStyle s (pyStr w)).2
        (setCol t i (some (columnWidthStyle s (pyStr w)).1)) (i + 1)
      refine ⟨{ name := autoName s.autoCounter, family := "table-column",
                text := colXml (pyStr w) } :: rest, ?_⟩
      rw [hr]
      simp [columnWidthStyle]
    · rw [if_neg hw]
      exact ih s t (i + 1)

theorem widthLoop_touched : ∀ (ws : List Node) (s : OdsState) (t : TableRec)
    (i j pos : Nat) (hj : j < ws.length), pos = i + j →
    (ws.get ⟨j, hj⟩).truthy = true → pos < t.columns.length →
    ((widthLoop s t i ws).2).columns[pos]?
        = some (some (autoName (s.autoCounter + (ws.take j).countP Node.truthy)))
    ∧ ({ name := autoName (s.autoCounter + (ws.take j).countP Node.truthy),
         family := "table-column",
         text := colXml (pyStr (ws.get ⟨j, hj⟩)) } : StyleElem)
        ∈ ((widthLoop s t i ws).1).doc := by
  intro ws
  induction ws with
  | nil => intro s t i j pos hj; exact absurd hj (by simp)
  | cons w ws ih =>
    intro s t i j pos hj hpos htr hlen
    cases j with
    | zero =>
        have hw : w.truthy = true := htr
        rw [widthLoop, if_pos hw]
        constructor
        · rw [widthLoop_untouched ws _ _ (i + 1) pos (Or.inl (by omega))]
          rw [setCol]
          have hpi : pos = i := by omega
          rw [hpi]
          rw [List.getElem?_set_eq_of_lt _ (by omega)]
          simp [columnWidthStyle]
        · obtain ⟨rest, hr⟩ := widthLoop_doc_prefix ws
            (columnWidthStyle s (pyStr w)).2
            (setCol t i (some (columnWidthStyle s (pyStr w)).1)) (i + 1)
          rw [hr]
          simp [columnWidthStyle]
    | succ j' =>
        have hj' : j' < ws.length := by
          rw [List.length_cons] at hj; omega
        have htr' : (ws.get ⟨j', hj'⟩).truthy = true := htr
        rw [widthLoop]
        by_cases hw : w.truthy
        · rw [if_pos hw]
          have hcnt : ((w :: ws).take (j' + 1)).countP Node.truthy
              = (ws.take j').countP Node.truthy + 1 := by
            rw [List.take_succ_cons, List.countP_cons, hw]
            simp
          have hres := ih (columnWidthStyle s (pyStr w)).2
            (setCol t i (some (columnWidthStyle s (pyStr w)).1)) (i + 1) j' pos
            hj' (by omega) htr' (by simp [setCol]; omega)
          have hauto : ((columnWidthStyle s (pyStr w)).2).autoCounter
              = s.autoCounter + 1 := rfl
          rw [hauto] at hres
          have harith : s.autoCounter + 1 + (ws.take j').countP Node.truthy
              = s.autoCounter + ((w :: ws).take (j' + 1)).countP Node.truthy := by
            rw [hcnt]; omega
          rw [harith] at hres
          exact hres
        · rw [if_neg hw]
          have hcnt : ((w :: ws).take (j' + 1)).countP Node.truthy
              = (ws.take j').countP Node.truthy := by
            rw [List.take_succ_cons, List.countP_cons]
            simp [hw]
          have hres := ih s t (i + 1) j' pos hj' (by omega) htr' hlen
          rw [hcnt]
          exact hres

theorem countP_take_le (p : Node → Bool) : ∀ (ws : List Node) (j1 j2 : Nat),
    j1 ≤ j2 → (ws.take j1).countP p ≤ (ws.take j2).countP p := by
  intro ws
  induction ws with
  | nil => intro j1 j2 _; simp
  | cons w ws ih =>
    intro j1 j2 h12
    cases j1 with
    | zero => simp
    | succ j1' =>
        cases j2 with
        | zero => omega
        | succ j2' =>
            rw [List.take_succ_cons, List.take_succ_cons,
              List.countP_cons, List.countP_cons]
            have := ih j1' j2' (by omega)
            omega

theorem countP_take_lt (p : Node → Bool) (ws : List Node) (j1 j2 : Nat)
    (h12 : j1 < j2) (hj1 : j1 < ws.length)
    (hp : p (ws.get ⟨j1, hj1⟩) = true) :
    (ws.take j1).countP p < (ws.take j2).countP p := by
  have h1 : (ws.take (j1 + 1)).countP p = (ws.take j1).countP p + 1 := by
    rw [List.take_succ, List.countP_append, List.getElem?_eq_getElem hj1]
    simp only [Option.toList_some, List.countP_cons, List.countP_nil]
    have hp' : p ws[j1] = true := hp
    rw [hp']
    simp
  have h2 := countP_take_le p ws (j1 + 1) j2 h12
  omega

theorem parseWidth_list (s : OdsState) (t : TableRec) (ws : List Node) :
    parseWidth s t [("width", Node.list ws)] = widthLoop s t 0 ws := by
  cases ws with
  | nil => rfl
  | cons w ws => rfl

/-- Claim C9: applying a width list updates exactly the column positions
whose entry is present and truthy (non-empty), setting each to a freshly
generated `table-column` style carrying that entry's width; positions
with an absent or empty entry keep their prior column style, so a list
shorter than the column count updates only the positions it covers; and
distinct updated positions receive distinct generated styles. -/
theorem c9_sparse_width : ∀ (s : OdsState) (t : TableRec) (ws : List Node)
    (pos : Nat), pos < t.columns.length →
    (∀ hp : pos < ws.length, (ws.get ⟨pos, hp⟩).truthy = true →
        ((parseWidth s t [("width", Node.list ws)]).2).columns[pos]?
            = some (some (autoName
                (s.autoCounter + (ws.take pos).countP Node.truthy)))
      ∧ ({ name := autoName (s.autoCounter + (ws.take pos).countP Node.truthy),
           family := "table-column",
           text := colXml (pyStr (ws.get ⟨pos, hp⟩)) } : StyleElem)
          ∈ ((parseWidth s t [("width", Node.list ws)]).1).doc)
  ∧ ((ws.length ≤ pos
        ∨ ∃ hp : pos < ws.length, (ws.get ⟨pos, hp⟩).truthy = false) →
      ((parseWidth s t [("width", Node.list ws)]).2).columns[pos]?
          = t.columns[pos]?)
  ∧ (∀ pos2, pos2 < t.columns.length →
      ∀ hp : pos < ws.length, ∀ hp2 : pos2 < ws.length,
      (ws.get ⟨pos, hp⟩).truthy = true →
      (ws.get ⟨pos2, hp2⟩).truthy = true → pos ≠ pos2 →
      ((parseWidth s t [("width", Node.list ws)]).2).columns[pos]?
        ≠ ((parseWidth s t [("width", Node.list ws)]).2).columns[pos2]?) := by
  intro s t ws pos hlen
  refine ⟨?_, ?_, ?_⟩
  · intro hp htr
    rw [parseWidth_list]
    exact widthLoop_touched ws s t 0 pos pos hp (by omega) htr hlen
  · intro h
    rw [parseWidth_list]
    apply widthLoop_untouched
    rcases h with h1 | ⟨hp, hf⟩
    · right; left; omega
    · right; right; exact ⟨pos, hp, by omega, hf⟩
  · intro pos2 hlen2 hp hp2 htr htr2 hne
    have h1 := (widthLoop_touched ws s t 0 pos pos hp (by omega) htr hlen).1
    have h2 := (widthLoop_touched ws s t 0 pos2 pos2 hp2 (by omega) htr2
      hlen2).1
    rw [parseWidth_list, h1, h2]
    intro heq
    simp only [Option.some.injEq] at heq
    have hk := autoName_inj heq
    have hcnt : (ws.take pos).countP Node.truthy
        = (ws.take pos2).countP Node.truthy := by omega
    rcases Nat.lt_or_ge pos pos2 with hlt | hge
    · exact absurd hcnt
        (Nat.ne_of_lt (countP_take_lt Node.truthy ws pos pos2 hlt hp htr))
    · have hlt2 : pos2 < pos := by omega
      exact absurd hcnt.symm
        (Nat.ne_of_lt (countP_take_lt Node.truthy ws pos2 pos hlt2 hp2 htr2))

/-- Claim C9 witness: the specification's example — width list
`["2cm", "", "4cm"]` on a 3-column table updates columns 0 and 2 with
distinct fresh column styles and leaves column 1's style unchanged. -/
theorem c9_sparse_width_witness :
    ((parseWidth initState
        { name := "T", rows := [], columns := [some "a", some "b", none] }
        [("width", Node.list [Node.str "2cm", Node.str "", Node.str "4cm"])]).2).columns[0]?
      = some (some (autoName 0))
  ∧ ((parseWidth initState
        { name := "T", rows := [], columns := [some "a", some "b", none] }
        [("width", Node.list [Node.str "2cm", Node.str "", Node.str "4cm"])]).2).columns[1]?
      = some (some "b")
  ∧ ((parseWidth initState
        { name := "T", rows := [], columns := [some "a", some "b", none] }
        [("width", Node.list [Node.str "2cm", Node.str "", Node.str "4cm"])]).2).columns[2]?
      = some (some (autoName 1))
  ∧ ((parseWidth initState
        { name := "T", rows := [], columns := [some "a", some "b", none] }
        [("width", Node.list [Node.str "2cm", Node.str "", Node.str "4cm"])]).2).columns[0]?
      ≠ ((parseWidth initState
        { name := "T", rows := [], columns := [some "a", some "b", none] }
        [("width", Node.list [Node.str "2cm", Node.str "", Node.str "4cm"])]).2).columns[2]?
  ∧ ({ name := autoName 0, family := "table-column",
       text := colXml "2cm" } : StyleElem)
      ∈ ((parseWidth initState
        { name := "T", rows := [], columns := [some "a", some "b", none] }
        [("width", Node.list [Node.str "2cm", Node.str "", Node.str "4cm"])]).1).doc := by
  have h0 := c9_sparse_width initState
    { name := "T", rows := [], columns := [some "a", some "b", none] }
    [Node.str "2cm", Node.str "", Node.str "4cm"] 0 (by decide)
  have h1 := c9_sparse_width initState
    { name := "T", rows := [], columns := [some "a", some "b", none] }
    [Node.str "2cm", Node.str "", Node.str "4cm"] 1 (by decide)
  have h2 := c9_sparse_width initState
    { name := "T", rows := [], columns := [some "a", some "b", none] }
    [Node.str "2cm", Node.str "", Node.str "4cm"] 2 (by decide)
  exact ⟨(h0.1 (by decide) rfl).1, h1.2.1 (Or.inr ⟨by decide, rfl⟩),
    (h2.1 (by decide) rfl).1,
    h0.2.2 2 (by decide) (by decide) (by decide) rfl rfl (by decide),
    (h0.1 (by decide) rfl).2⟩

end Odsgen
